import Mathlib

/-!
Verification of the user-management task service: a shallow embedding of the
User/Task data model, the overdue-review management command
(`check_overdue_tasks`), the permission classes, and the task/user HTTP
endpoints, with theorems checking the specification's claims against them.
-/

/-- A row of the `users` table (`user_service/models.py`): role is one of
`admin`, `manager`, `user`; `is_active` defaults to true; `missed_tasks` is
an integer counter field. -/
structure UserRec where
  uid : Nat
  username : String
  role : String
  is_active : Bool
  missed_tasks : Int
deriving DecidableEq, Repr

/-- A row of the `task` table (`task_service/models.py`): status is
`assigned` or `completed`; `assigned_to` is the foreign key to a user. -/
structure TaskRec where
  tid : Nat
  name : String
  description : String
  assigned_to : Nat
  deadline : Int
  status : String
deriving DecidableEq, Repr

/-- The database state the overdue job reads and writes. -/
structure JobState where
  users : List UserRec
  tasks : List TaskRec
deriving DecidableEq, Repr

/-- `Task.objects.filter(assigned_to=user, status="assigned", deadline__lt=now).count()`
from `check_overdue_tasks.py`. -/
def missedCount (tasks : List TaskRec) (u : UserRec) (now : Int) : Nat :=
  (tasks.filter fun t =>
    t.assigned_to == u.uid && (t.status == "assigned" && decide (t.deadline < now))).length

/-- `User.objects.filter(role="user", is_active=True)`: the job's selection. -/
def selectedUsers (users : List UserRec) : List UserRec :=
  users.filter fun u => u.role == "user" && u.is_active

/-- A user the job both mails about and deactivates: selected and with
`missed_count >= 5` (the same comparison guards both actions in the code). -/
def qualifies (tasks : List TaskRec) (now : Int) (u : UserRec) : Bool :=
  (u.role == "user" && u.is_active) && decide (5 ≤ missedCount tasks u now)

/-- The per-user effect of a fault-free run: deactivate exactly the
qualifying users, leave everyone else untouched. -/
def stepUser (tasks : List TaskRec) (now : Int) (u : UserRec) : UserRec :=
  if qualifies tasks now u then { u with is_active := false } else u

/-- The loop body of `Command.handle`: iterate over the user table in order,
and for each selected user compute `missed_count`; when it is `>= 5`, first
attempt `send_mail` and then attempt `user.save()` after setting
`is_active = False`.  Neither call is wrapped in a try/except in the source,
so a raising send or save propagates: the run stops there, leaving the
current user's row and every later row unchanged.  `sendFails`/`saveFails`
tell, by user id, whether the corresponding external call raises.  Returns
the user table after the run, the list of `(uid, missed_count)` mails
actually sent, and whether the run aborted with an exception. -/
def runUsers (tasks : List TaskRec) (now : Int) (sendFails saveFails : Nat → Bool) :
    List UserRec → List UserRec × List (Nat × Nat) × Bool
  | [] => ([], [], false)
  | u :: rest =>
    if u.role == "user" && u.is_active then
      if 5 ≤ missedCount tasks u now then
        if sendFails u.uid then (u :: rest, [], true)
        else if saveFails u.uid then (u :: rest, [(u.uid, missedCount tasks u now)], true)
        else
          let r := runUsers tasks now sendFails saveFails rest
          ({ u with is_active := false } :: r.1, (u.uid, missedCount tasks u now) :: r.2.1, r.2.2)
      else
        let r := runUsers tasks now sendFails saveFails rest
        (u :: r.1, r.2.1, r.2.2)
    else
      let r := runUsers tasks now sendFails saveFails rest
      (u :: r.1, r.2.1, r.2.2)

/-- Outcome of one invocation of the overdue-review command. -/
structure RunResult where
  users : List UserRec
  tasks : List TaskRec
  mails : List (Nat × Nat)
  aborted : Bool
deriving DecidableEq, Repr

/-- `Command.handle`: fix `now` once, then process the user table.  The job
never touches the task table. -/
def runJob (now : Int) (sendFails saveFails : Nat → Bool) (st : JobState) : RunResult :=
  let r := runUsers st.tasks now sendFails saveFails st.users
  ⟨r.1, st.tasks, r.2.1, r.2.2⟩

/-- Oracle for a run in which every external call succeeds. -/
def noFail : Nat → Bool := fun _ => false

/-- Look a user up by primary key, as `User.objects.get(pk=...)` /
`find?` over the table. -/
def findUser (users : List UserRec) (x : Nat) : Option UserRec :=
  users.find? fun v => v.uid == x

/-- Number of notifications sent for a given user id during a run. -/
def mailsFor (mails : List (Nat × Nat)) (x : Nat) : Nat :=
  (mails.filter fun p => p.1 == x).length

/-- `IsManagerOrAdmin.has_permission` (`utils/permission.py`): requester is
authenticated (`some`) and has role `manager` or `admin`. -/
def isManagerOrAdminPerm : Option UserRec → Bool
  | none => false
  | some u => u.role == "manager" || u.role == "admin"

/-- `IsUserOrAdmin.has_permission` (`utils/permission.py`): requester is
authenticated (`some`) and has role `user` or `admin`.  Note: no check
against the task's assignee appears anywhere. -/
def isUserOrAdminPerm : Option UserRec → Bool
  | none => false
  | some u => u.role == "user" || u.role == "admin"

/-- `UpdateTaskStatusSerializer` accepts exactly the `status` choices of the
Task model. -/
def validStatus (s : String) : Bool :=
  s == "assigned" || s == "completed"

/-- `UpdateTaskStatus.put` (`task_service/views.py`): permission check by
`IsUserOrAdmin`, then `Task.objects.get(pk=pk)` (404 when absent), then the
serializer validates the new status (400 when invalid) and saves it.
Returns the task table after the request and the HTTP status code. -/
def updateTaskStatus (requester : Option UserRec) (tasks : List TaskRec)
    (pk : Nat) (s : String) : List TaskRec × Nat :=
  if isUserOrAdminPerm requester then
    match tasks.find? (fun t => t.tid == pk) with
    | none => (tasks, 404)
    | some _ =>
      if validStatus s then
        (tasks.map fun t => if t.tid == pk then { t with status := s } else t, 200)
      else (tasks, 400)
  else (tasks, 403)

/-- `UserDeleteView.delete` (`user_service/views.py`): permission check by
`IsManagerOrAdmin`, then `User.objects.get(pk=pk)` (404 when absent); a
target with role `admin` is refused with 403 before any caller distinction;
otherwise the row is deleted (204). -/
def userDelete (requester : Option UserRec) (users : List UserRec)
    (pk : Nat) : List UserRec × Nat :=
  if isManagerOrAdminPerm requester then
    match findUser users pk with
    | none => (users, 404)
    | some u =>
      if u.role == "admin" then (users, 403)
      else (users.filter fun v => !(v.uid == pk), 204)
  else (users, 403)

/-- `TaskCreateSerializer`'s `assigned_to` field: a primary key resolved
against `User.objects.filter(role="user")`. -/
def findAssignee (users : List UserRec) (assignedTo : Nat) : Option UserRec :=
  (users.filter fun u => u.role == "user").find? fun u => u.uid == assignedTo

/-- `TaskCreateSerializer` validation: the assignee must resolve in the
role-`user` queryset, `validate` rejects an inactive assignee, and
`validate_deadline` rejects `value < timezone.now()`. -/
def taskCreateValid (users : List UserRec) (now : Int)
    (assignedTo : Nat) (deadline : Int) : Bool :=
  match findAssignee users assignedTo with
  | none => false
  | some u => u.is_active && !(decide (deadline < now))

/-- `TaskAssignmentView.post` (`task_service/views.py`): permission check by
`IsManagerOrAdmin`, then serializer validation; on success a Task row is
created with status defaulted to `assigned` (201), otherwise nothing is
created (400).  Returns the task table after the request and the HTTP
status code. -/
def taskAssignment (requester : Option UserRec) (users : List UserRec)
    (tasks : List TaskRec) (nextId : Nat) (nm ds : String)
    (assignedTo : Nat) (deadline now : Int) : List TaskRec × Nat :=
  if isManagerOrAdminPerm requester then
    if taskCreateValid users now assignedTo deadline then
      (tasks ++ [⟨nextId, nm, ds, assignedTo, deadline, "assigned"⟩], 201)
    else (tasks, 400)
  else (tasks, 403)

/-- The specification's own wording of the derived overdue-review outcome:
"per user, a missed-task count = number of that user's Tasks with status
`assigned` and deadline strictly before now".  Stated independently from
`missedCount` so the two can be compared. -/
def overdueCountSpec (tasks : List TaskRec) (uid : Nat) (now : Int) : Nat :=
  (tasks.filter fun t => t.assigned_to == uid).countP fun t =>
    t.status == "assigned" && decide (t.deadline < now)

theorem runUsers_noFail (tasks : List TaskRec) (now : Int) (us : List UserRec) :
    runUsers tasks now noFail noFail us =
      (us.map (stepUser tasks now),
       (us.filter (qualifies tasks now)).map (fun u => (u.uid, missedCount tasks u now)),
       false) := by
  induction us with
  | nil => rfl
  | cons u rest ih =>
    by_cases h1 : (u.role == "user" && u.is_active) = true
    · by_cases h2 : 5 ≤ missedCount tasks u now
      · simp [runUsers, noFail, ih, stepUser, qualifies, h1, h2, List.filter_cons]
      · simp [runUsers, noFail, ih, stepUser, qualifies, h1, h2, List.filter_cons]
    · simp [runUsers, noFail, ih, stepUser, qualifies, h1, List.filter_cons]

theorem runJob_noFail (now : Int) (st : JobState) :
    runJob now noFail noFail st =
      ⟨st.users.map (stepUser st.tasks now), st.tasks,
       (st.users.filter (qualifies st.tasks now)).map
         (fun u => (u.uid, missedCount st.tasks u now)),
       false⟩ := by
  simp [runJob, runUsers_noFail]

theorem filter_uid_eq {us : List UserRec} {u : UserRec}
    (hnd : (us.map UserRec.uid).Nodup) (hu : u ∈ us) :
    us.filter (fun v => v.uid == u.uid) = [u] := by
  induction us with
  | nil => cases hu
  | cons v rest ih =>
    rw [List.map_cons, List.nodup_cons] at hnd
    rcases List.mem_cons.mp hu with rfl | hmem
    · have hrest : rest.filter (fun w => w.uid == u.uid) = [] := by
        rw [List.filter_eq_nil_iff]
        intro w hw hbeq
        exact hnd.1 ((eq_of_beq hbeq) ▸ List.mem_map_of_mem UserRec.uid hw)
      simp [List.filter_cons, hrest]
    · have hne : (v.uid == u.uid) = false := by
        rw [beq_eq_false_iff_ne]
        intro he
        exact hnd.1 (he ▸ List.mem_map_of_mem UserRec.uid hmem)
      simp only [List.filter_cons, hne, Bool.false_eq_true, if_false]
      exact ih hnd.2 hmem

theorem mailsFor_eq (tasks : List TaskRec) (now : Int) (us : List UserRec) (x : Nat) :
    mailsFor ((us.filter (qualifies tasks now)).map
        (fun u => (u.uid, missedCount tasks u now))) x
      = ((us.filter fun v => v.uid == x).filter (qualifies tasks now)).length := by
  induction us with
  | nil => rfl
  | cons u rest ih =>
    by_cases hq : qualifies tasks now u = true
    · by_cases hx : (u.uid == x) = true
      · simp [mailsFor, List.filter_cons, hq, hx] at ih ⊢
        omega
      · simp [mailsFor, List.filter_cons, hq, hx] at ih ⊢
        exact ih
    · by_cases hx : (u.uid == x) = true
      · simp [mailsFor, List.filter_cons, hq, hx] at ih ⊢
        exact ih
      · simp [mailsFor, List.filter_cons, hq, hx] at ih ⊢
        exact ih

theorem stepUser_uid (tasks : List TaskRec) (now : Int) (u : UserRec) :
    (stepUser tasks now u).uid = u.uid := by
  unfold stepUser
  split <;> rfl

theorem findUser_map_step (tasks : List TaskRec) (now : Int)
    {us : List UserRec} {u : UserRec}
    (hnd : (us.map UserRec.uid).Nodup) (hu : u ∈ us) :
    findUser (us.map (stepUser tasks now)) u.uid = some (stepUser tasks now u) := by
  induction us with
  | nil => cases hu
  | cons v rest ih =>
    rw [List.map_cons, List.nodup_cons] at hnd
    rcases List.mem_cons.mp hu with rfl | hmem
    · simp [findUser, List.find?_cons, stepUser_uid]
    · have hne : (v.uid == u.uid) = false := by
        rw [beq_eq_false_iff_ne]
        intro he
        exact hnd.1 (he ▸ List.mem_map_of_mem UserRec.uid hmem)
      rw [List.map_cons]
      unfold findUser
      rw [List.find?_cons_of_neg]
      · exact ih hnd.2 hmem
      · simp [stepUser_uid, hne]

theorem deact_ne_self {u : UserRec} (h : u.is_active = true) :
    ({ u with is_active := false } : UserRec) ≠ u := by
  intro he
  have := congrArg UserRec.is_active he
  rw [h] at this
  exact Bool.false_ne_true this

/-- An overdue task fixture: deadline 0, status `assigned`. -/
def mkTask (i uid : Nat) : TaskRec := ⟨i, "task", "desc", uid, 0, "assigned"⟩

def cu1 : UserRec := ⟨1, "alice", "user", true, 0⟩

def cu2 : UserRec := ⟨2, "bob", "user", true, 0⟩

def cu3 : UserRec := ⟨3, "carol", "user", true, 0⟩

/-- Ten overdue assigned tasks: five for user 1, five for user 2. -/
def ctasks : List TaskRec :=
  [mkTask 1 1, mkTask 2 1, mkTask 3 1, mkTask 4 1, mkTask 5 1,
   mkTask 6 2, mkTask 7 2, mkTask 8 2, mkTask 9 2, mkTask 10 2]

/-- Fixture state: users 1 and 2 each have five overdue tasks, user 3 none. -/
def cst : JobState := ⟨[cu1, cu2, cu3], ctasks⟩

/-- C1: for every active role-`user` user selected by a run whose
missed_count is at least the threshold 5, the run sends exactly one
notification for that user and sets the user's active flag to false; and
across all selected users, notification and deactivation are decided by the
same `>=` comparison: one happens iff the other does. -/
theorem C1_threshold_notify_deactivate (st : JobState) (now : Int) (u : UserRec)
    (hnd : (st.users.map UserRec.uid).Nodup)
    (hu : u ∈ selectedUsers st.users)
    (hm : 5 ≤ missedCount st.tasks u now) :
    mailsFor (runJob now noFail noFail st).mails u.uid = 1 ∧
    findUser (runJob now noFail noFail st).users u.uid =
      some { u with is_active := false } ∧
    (∀ v ∈ selectedUsers st.users,
      1 ≤ mailsFor (runJob now noFail noFail st).mails v.uid ↔
        findUser (runJob now noFail noFail st).users v.uid =
          some { v with is_active := false }) := by
  rw [runJob_noFail]
  obtain ⟨hu', hsel⟩ := List.mem_filter.mp hu
  have hq : qualifies st.tasks now u = true := by
    simp [qualifies, hsel, hm]
  refine ⟨?_, ?_, ?_⟩
  · show mailsFor ((st.users.filter (qualifies st.tasks now)).map
        (fun v => (v.uid, missedCount st.tasks v now))) u.uid = 1
    rw [mailsFor_eq, filter_uid_eq hnd hu']
    simp [List.filter_cons, hq]
  · show findUser (st.users.map (stepUser st.tasks now)) u.uid = _
    rw [findUser_map_step st.tasks now hnd hu']
    simp [stepUser, hq]
  · intro v hv
    obtain ⟨hv', hselv⟩ := List.mem_filter.mp hv
    have hact : v.is_active = true := ((Bool.and_eq_true _ _).mp hselv).2
    show 1 ≤ mailsFor ((st.users.filter (qualifies st.tasks now)).map
        (fun w => (w.uid, missedCount st.tasks w now))) v.uid ↔
      findUser (st.users.map (stepUser st.tasks now)) v.uid =
        some { v with is_active := false }
    rw [mailsFor_eq, filter_uid_eq hnd hv', findUser_map_step st.tasks now hnd hv']
    by_cases hqv : qualifies st.tasks now v = true
    · simp [List.filter_cons, hqv, stepUser]
    · simp [List.filter_cons, hqv, stepUser]
      intro he
      exact absurd he.symm (deact_ne_self hact)

theorem C1_threshold_notify_deactivate_witness :
    mailsFor (runJob 10 noFail noFail cst).mails 1 = 1 ∧
    findUser (runJob 10 noFail noFail cst).users 1 =
      some { cu1 with is_active := false } :=
  ⟨(C1_threshold_notify_deactivate cst 10 cu1 (by decide) (by decide) (by decide)).1,
   (C1_threshold_notify_deactivate cst 10 cu1 (by decide) (by decide) (by decide)).2.1⟩

/-- C2: a user selected by a run whose missed_count is strictly below the
threshold 5 is left unchanged (active flag included) and gets no
notification. -/
theorem C2_below_threshold_untouched (st : JobState) (now : Int) (u : UserRec)
    (hnd : (st.users.map UserRec.uid).Nodup)
    (hu : u ∈ selectedUsers st.users)
    (hm : missedCount st.tasks u now < 5) :
    mailsFor (runJob now noFail noFail st).mails u.uid = 0 ∧
    findUser (runJob now noFail noFail st).users u.uid = some u := by
  rw [runJob_noFail]
  obtain ⟨hu', hsel⟩ := List.mem_filter.mp hu
  have hq : qualifies st.tasks now u = false := by
    simp [qualifies, hsel, Nat.not_le.mpr hm]
  constructor
  · show mailsFor ((st.users.filter (qualifies st.tasks now)).map
        (fun v => (v.uid, missedCount st.tasks v now))) u.uid = 0
    rw [mailsFor_eq, filter_uid_eq hnd hu']
    simp [List.filter_cons, hq]
  · show findUser (st.users.map (stepUser st.tasks now)) u.uid = some u
    rw [findUser_map_step st.tasks now hnd hu']
    simp [stepUser, hq]

theorem C2_below_threshold_untouched_witness :
    mailsFor (runJob 10 noFail noFail cst).mails 3 = 0 ∧
    findUser (runJob 10 noFail noFail cst).users 3 = some cu3 :=
  C2_below_threshold_untouched cst 10 cu3 (by decide) (by decide) (by decide)

/-- A completed task fixture. -/
def ctaskDone : TaskRec := ⟨11, "task", "desc", 1, 0, "completed"⟩

/-- C3: every decision of a run uses missed counts computed with the single
reference time `now` fixed for the whole run; the count agrees with the
specification's description (number of the user's tasks with status
`assigned` and deadline strictly before `now`); and a task whose deadline
equals `now`, or whose status is `completed`, is never counted. -/
theorem C3_missed_count_semantics (st : JobState) (now : Int) :
    (runJob now noFail noFail st).mails
      = (st.users.filter (qualifies st.tasks now)).map
          (fun u => (u.uid, missedCount st.tasks u now)) ∧
    (∀ (tasks : List TaskRec) (u : UserRec),
      missedCount tasks u now = overdueCountSpec tasks u.uid now) ∧
    (∀ (t : TaskRec) (tasks : List TaskRec) (u : UserRec), t.deadline = now →
      missedCount (t :: tasks) u now = missedCount tasks u now) ∧
    (∀ (t : TaskRec) (tasks : List TaskRec) (u : UserRec), t.status = "completed" →
      missedCount (t :: tasks) u now = missedCount tasks u now) := by
  refine ⟨?_, ?_, ?_, ?_⟩
  · rw [runJob_noFail]
  · intro tasks u
    rw [overdueCountSpec, List.countP_eq_length_filter, List.filter_filter, missedCount]
    congr 1
    apply List.filter_congr
    intro t _
    rw [Bool.and_comm]
  · intro t tasks u h
    simp [missedCount, List.filter_cons, h]
  · intro t tasks u h
    simp [missedCount, List.filter_cons, h]

theorem C3_missed_count_semantics_witness :
    missedCount ctasks cu1 10 = overdueCountSpec ctasks 1 10 ∧
    missedCount [mkTask 1 1] cu1 0 = missedCount [] cu1 0 ∧
    missedCount [ctaskDone] cu1 10 = missedCount [] cu1 10 :=
  ⟨(C3_missed_count_semantics cst 10).2.1 ctasks cu1,
   (C3_missed_count_semantics cst 0).2.2.1 (mkTask 1 1) [] cu1 rfl,
   (C3_missed_count_semantics cst 10).2.2.2 ctaskDone [] cu1 rfl⟩

/-- Oracle making the external call for user 1 raise. -/
def failsOn1 : Nat → Bool := fun n => n == 1

theorem runUsers_failure_abort (tasks : List TaskRec) (now : Int)
    (sendFails saveFails : Nat → Bool) (us : List UserRec) (u : UserRec)
    (hu : u ∈ us) (hsel : (u.role == "user" && u.is_active) = true)
    (hm : 5 ≤ missedCount tasks u now)
    (hfail : sendFails u.uid = true ∨ saveFails u.uid = true) :
    (runUsers tasks now sendFails saveFails us).2.2 = true ∧
    u ∈ (runUsers tasks now sendFails saveFails us).1 := by
  induction us with
  | nil => cases hu
  | cons v rest ih =>
    by_cases h1 : (v.role == "user" && v.is_active) = true
    · by_cases h2 : 5 ≤ missedCount tasks v now
      · by_cases h3 : sendFails v.uid = true
        · simp [runUsers, h1, h2, h3, List.mem_cons]
          rcases List.mem_cons.mp hu with rfl | hmem
          · exact Or.inl rfl
          · exact Or.inr hmem
        · by_cases h4 : saveFails v.uid = true
          · simp [runUsers, h1, h2, h3, h4, List.mem_cons]
            rcases List.mem_cons.mp hu with rfl | hmem
            · exact Or.inl rfl
            · exact Or.inr hmem
          · rcases List.mem_cons.mp hu with rfl | hmem
            · rcases hfail with hf | hf
              · exact absurd hf h3
              · exact absurd hf h4
            · have hr := ih hmem
              simp [runUsers, h1, h2, h3, h4, List.mem_cons, hr.1]
              exact Or.inr hr.2
      · rcases List.mem_cons.mp hu with rfl | hmem
        · exact absurd hm h2
        · have hr := ih hmem
          simp [runUsers, h1, h2, List.mem_cons, hr.1]
          exact Or.inr hr.2
    · rcases List.mem_cons.mp hu with rfl | hmem
      · exact absurd hsel h1
      · have hr := ih hmem
        simp [runUsers, h1, List.mem_cons, hr.1]
        exact Or.inr hr.2

/-- C4 counterexample: in `cst` user 1 is selected with missed_count 5 and
its `send_mail` raises; the run aborts, user 1 is NOT deactivated, and the
equally qualifying user 2 is neither processed nor notified — refuting the
claim that a notification failure never aborts the run and never blocks
deactivation. -/
theorem C4_notification_failure_counterexample :
    cu1 ∈ selectedUsers cst.users ∧
    5 ≤ missedCount cst.tasks cu1 10 ∧
    failsOn1 cu1.uid = true ∧
    (runJob 10 failsOn1 noFail cst).aborted = true ∧
    findUser (runJob 10 failsOn1 noFail cst).users cu1.uid ≠
      some { cu1 with is_active := false } ∧
    findUser (runJob 10 failsOn1 noFail cst).users cu2.uid = some cu2 ∧
    mailsFor (runJob 10 failsOn1 noFail cst).mails cu2.uid = 0 := by
  decide

/-- C4 amended: a raising notification send for a qualifying selected user
aborts the run with the exception, and that user is left in the table
unchanged — i.e. the send failure does block the deactivation (there is no
try/except around `send_mail`). -/
theorem C4_notification_failure_aborts (st : JobState) (now : Int)
    (sendFails saveFails : Nat → Bool) (u : UserRec)
    (hu : u ∈ st.users) (hsel : (u.role == "user" && u.is_active) = true)
    (hm : 5 ≤ missedCount st.tasks u now)
    (hsend : sendFails u.uid = true) :
    (runJob now sendFails saveFails st).aborted = true ∧
    u ∈ (runJob now sendFails saveFails st).users := by
  have h := runUsers_failure_abort st.tasks now sendFails saveFails st.users u
    hu hsel hm (Or.inl hsend)
  exact ⟨h.1, h.2⟩

theorem C4_notification_failure_aborts_witness :
    (runJob 10 failsOn1 noFail cst).aborted = true ∧
    cu1 ∈ (runJob 10 failsOn1 noFail cst).users :=
  C4_notification_failure_aborts cst 10 failsOn1 noFail cu1
    (by decide) (by decide) (by decide) (by decide)

/-- C5 counterexample: in `cst` user 1's `user.save()` raises; the run
aborts there, so user 2 — selected, qualifying, and itself failure-free —
is never processed: not deactivated and not notified, and no per-user error
marker exists anywhere in the outcome.  This refutes the claim that a
per-user failure does not stop the processing of remaining users. -/
theorem C5_per_user_failure_counterexample :
    cu2 ∈ selectedUsers cst.users ∧
    5 ≤ missedCount cst.tasks cu2 10 ∧
    failsOn1 cu2.uid = false ∧
    (runJob 10 noFail failsOn1 cst).aborted = true ∧
    findUser (runJob 10 noFail failsOn1 cst).users cu2.uid = some cu2 ∧
    mailsFor (runJob 10 noFail failsOn1 cst).mails cu2.uid = 0 := by
  decide

/-- C5 amended: a raising `user.save()` for a qualifying selected user
aborts the whole run with the exception (there is no per-user isolation and
no per-user error marker), leaving that user's row unchanged. -/
theorem C5_save_failure_aborts (st : JobState) (now : Int)
    (sendFails saveFails : Nat → Bool) (u : UserRec)
    (hu : u ∈ st.users) (hsel : (u.role == "user" && u.is_active) = true)
    (hm : 5 ≤ missedCount st.tasks u now)
    (hsave : saveFails u.uid = true) :
    (runJob now sendFails saveFails st).aborted = true ∧
    u ∈ (runJob now sendFails saveFails st).users := by
  have h := runUsers_failure_abort st.tasks now sendFails saveFails st.users u
    hu hsel hm (Or.inr hsave)
  exact ⟨h.1, h.2⟩

theorem C5_save_failure_aborts_witness :
    (runJob 10 noFail failsOn1 cst).aborted = true ∧
    cu1 ∈ (runJob 10 noFail failsOn1 cst).users :=
  C5_save_failure_aborts cst 10 noFail failsOn1 cu1
    (by decide) (by decide) (by decide) (by decide)

/-- State with one selected user and no tasks at all: nobody reaches the
threshold. -/
def cst6 : JobState := ⟨[cu3], []⟩

/-- C6 counterexample: with one selected user and no overdue tasks, a
fault-free run deactivates nobody, so the second run's selection equals the
first run's nonempty selection — it is not a strict subset of it. -/
theorem C6_strict_subset_counterexample :
    selectedUsers ((runJob 0 noFail noFail cst6).users) = selectedUsers cst6.users ∧
    selectedUsers cst6.users = [cu3] ∧
    ¬ (selectedUsers ((runJob 0 noFail noFail cst6).users) ⊆ selectedUsers cst6.users ∧
       ¬ (selectedUsers cst6.users ⊆ selectedUsers ((runJob 0 noFail noFail cst6).users))) := by
  refine ⟨by decide, by decide, ?_⟩
  intro hc
  apply hc.2
  have he : selectedUsers ((runJob 0 noFail noFail cst6).users)
      = selectedUsers cst6.users := by decide
  rw [he]
  exact fun a ha => ha

/-- C6 amended: after a fault-free run, the selection of a later run is a
subset of this run's selection (deactivation is one-way: a user the job
deactivates has active = false and is excluded from every later
selection), and the subset is strict as soon as some selected user met the
threshold; it need not be strict when no selected user qualified. -/
theorem C6_deactivation_monotone (st : JobState) (now : Int) :
    selectedUsers ((runJob now noFail noFail st).users) ⊆ selectedUsers st.users ∧
    (∀ u ∈ selectedUsers st.users, 5 ≤ missedCount st.tasks u now →
      u ∉ selectedUsers ((runJob now noFail noFail st).users)) := by
  rw [runJob_noFail]
  constructor
  · intro a ha
    obtain ⟨hmem, hsel⟩ := List.mem_filter.mp ha
    obtain ⟨w, hw, hstep⟩ := List.mem_map.mp hmem
    by_cases hq : qualifies st.tasks now w = true
    · exfalso
      subst hstep
      simp only [stepUser, if_pos hq] at hsel
      simp at hsel
    · subst hstep
      simp only [stepUser, if_neg hq] at hsel ⊢
      exact List.mem_filter.mpr ⟨hw, hsel⟩
  · intro u hu hm hcontra
    obtain ⟨hu', hsel⟩ := List.mem_filter.mp hu
    obtain ⟨hmem2, _⟩ := List.mem_filter.mp hcontra
    obtain ⟨w, hw, hstep⟩ := List.mem_map.mp hmem2
    by_cases hq : qualifies st.tasks now w = true
    · have hact : u.is_active = false := by
        rw [← hstep]
        simp only [stepUser, if_pos hq]
      have h2 := ((Bool.and_eq_true _ _).mp hsel).2
      rw [hact] at h2
      exact Bool.false_ne_true h2
    · have hwu : w = u := by
        rw [← hstep]
        simp only [stepUser, if_neg hq]
      apply hq
      rw [hwu]
      simp [qualifies, hsel, hm]

theorem C6_deactivation_monotone_witness :
    cu1 ∈ selectedUsers cst.users ∧
    cu1 ∉ selectedUsers ((runJob 10 noFail noFail cst).users) :=
  ⟨by decide, (C6_deactivation_monotone cst 10).2 cu1 (by decide) (by decide)⟩

/-- Everything of a user row except the active flag. -/
def frameProj (u : UserRec) : Nat × String × String × Int :=
  (u.uid, u.username, u.role, u.missed_tasks)

/-- Overwrite the `missed_tasks` counter of a row by an arbitrary function
of the user id. -/
def setMissed (g : Nat → Int) (u : UserRec) : UserRec :=
  { u with missed_tasks := g u.uid }

theorem runUsers_frame (tasks : List TaskRec) (now : Int)
    (sendFails saveFails : Nat → Bool) (us : List UserRec) :
    ((runUsers tasks now sendFails saveFails us).1).map frameProj
      = us.map frameProj := by
  induction us with
  | nil => rfl
  | cons u rest ih =>
    by_cases h1 : (u.role == "user" && u.is_active) = true
    · by_cases h2 : 5 ≤ missedCount tasks u now
      · by_cases h3 : sendFails u.uid = true
        · simp [runUsers, h1, h2, h3]
        · by_cases h4 : saveFails u.uid = true
          · simp [runUsers, h1, h2, h3, h4]
          · simp [runUsers, h1, h2, h3, h4, ih, frameProj]
      · simp [runUsers, h1, h2, ih]
    · simp [runUsers, h1, ih]

theorem setMissed_uid (g : Nat → Int) (u : UserRec) :
    (setMissed g u).uid = u.uid := rfl

theorem setMissed_username (g : Nat → Int) (u : UserRec) :
    (setMissed g u).username = u.username := rfl

theorem setMissed_role (g : Nat → Int) (u : UserRec) :
    (setMissed g u).role = u.role := rfl

theorem setMissed_active (g : Nat → Int) (u : UserRec) :
    (setMissed g u).is_active = u.is_active := rfl

theorem setMissed_counter (g : Nat → Int) (u : UserRec) :
    (setMissed g u).missed_tasks = g u.uid := rfl

theorem setMissed_mk (g : Nat → Int) (a : Nat) (b c : String) (d : Bool) (e : Int) :
    setMissed g ⟨a, b, c, d, e⟩ = ⟨a, b, c, d, g a⟩ := rfl

theorem missedCount_setMissed (tasks : List TaskRec) (g : Nat → Int)
    (u : UserRec) (now : Int) :
    missedCount tasks (setMissed g u) now = missedCount tasks u now := rfl

theorem runUsers_missed_independent (tasks : List TaskRec) (now : Int)
    (sendFails saveFails : Nat → Bool) (g : Nat → Int) (us : List UserRec) :
    runUsers tasks now sendFails saveFails (us.map (setMissed g)) =
      (((runUsers tasks now sendFails saveFails us).1).map (setMissed g),
       (runUsers tasks now sendFails saveFails us).2.1,
       (runUsers tasks now sendFails saveFails us).2.2) := by
  induction us with
  | nil => rfl
  | cons u rest ih =>
    by_cases h1 : (u.role == "user" && u.is_active) = true
    · by_cases h2 : 5 ≤ missedCount tasks u now
      · by_cases h3 : sendFails u.uid = true
        · simp [runUsers, h1, h2, h3, setMissed_uid, setMissed_username,
            setMissed_role, setMissed_active, setMissed_counter, setMissed_mk,
            missedCount_setMissed]
        · by_cases h4 : saveFails u.uid = true
          · simp [runUsers, h1, h2, h3, h4, setMissed_uid, setMissed_username,
              setMissed_role, setMissed_active, setMissed_counter, setMissed_mk,
              missedCount_setMissed]
          · simp [runUsers, h1, h2, h3, h4, ih, setMissed_uid, setMissed_username,
              setMissed_role, setMissed_active, setMissed_counter, setMissed_mk,
              missedCount_setMissed]
      · simp [runUsers, h1, h2, ih, setMissed_uid, setMissed_username,
          setMissed_role, setMissed_active, setMissed_counter, setMissed_mk,
          missedCount_setMissed]
    · simp [runUsers, h1, ih, setMissed_uid, setMissed_username,
        setMissed_role, setMissed_active, setMissed_counter, setMissed_mk,
        missedCount_setMissed]

/-- C7: a run — with any outcome of the external send and save calls —
never modifies the task table; on every user row it preserves id, username,
role and the `missed_tasks` counter (so it writes at most the active flag);
and its entire outcome is independent of the `missed_tasks` counters (it
never reads them): rewriting every counter through any function `g` changes
nothing but the carried-through counters themselves. -/
theorem C7_job_frame (st : JobState) (now : Int)
    (sendFails saveFails : Nat → Bool) :
    (runJob now sendFails saveFails st).tasks = st.tasks ∧
    (runJob now sendFails saveFails st).users.map frameProj
      = st.users.map frameProj ∧
    (∀ g : Nat → Int,
      runJob now sendFails saveFails ⟨st.users.map (setMissed g), st.tasks⟩ =
        ⟨((runJob now sendFails saveFails st).users).map (setMissed g), st.tasks,
         (runJob now sendFails saveFails st).mails,
         (runJob now sendFails saveFails st).aborted⟩) := by
  refine ⟨rfl, ?_, ?_⟩
  · exact runUsers_frame st.tasks now sendFails saveFails st.users
  · intro g
    show runJob now sendFails saveFails ⟨st.users.map (setMissed g), st.tasks⟩ = _
    simp [runJob, runUsers_missed_independent]

/-- A task assigned to user 1. -/
def ctask : TaskRec := ⟨1, "t", "d", 1, 5, "assigned"⟩

/-- A role-`user` requester who is not the assignee of `ctask`. -/
def cu9 : UserRec := ⟨9, "eve", "user", true, 0⟩

def cmanager : UserRec := ⟨4, "mara", "manager", true, 0⟩

def cadmin : UserRec := ⟨5, "root", "admin", true, 0⟩

/-- C8 counterexample: requester `cu9` has role `user`, is not an admin and
is not the assignee of `ctask` (user 1 is), yet the status-update endpoint
accepts the request with 200 and mutates the task — the permission class
checks only the role, never the assignee. -/
theorem C8_assignee_only_counterexample :
    cu9.role = "user" ∧ cu9.uid ≠ ctask.assigned_to ∧
    (updateTaskStatus (some cu9) [ctask] 1 "completed").2 = 200 ∧
    (updateTaskStatus (some cu9) [ctask] 1 "completed").1 ≠ [ctask] ∧
    (updateTaskStatus (some cu9) [ctask] 1 "completed").1
      = [{ ctask with status := "completed" }] := by
  decide

/-- C8 amended: the status update is guarded only by `IsUserOrAdmin`: any
authenticated requester of role `user` or `admin` — assignee or not —
mutates the found task's status (for a valid status value), while an
unauthenticated requester or one of any other role (e.g. `manager`) leaves
the task table unchanged and gets 403. -/
theorem C8_role_gate (tasks : List TaskRec) (pk : Nat) (s : String) (r : UserRec)
    (hr : r.role = "user" ∨ r.role = "admin")
    (hex : (tasks.find? (fun t => t.tid == pk)).isSome = true)
    (hs : validStatus s = true) :
    (updateTaskStatus (some r) tasks pk s).1
        = tasks.map (fun t => if t.tid == pk then { t with status := s } else t) ∧
    (updateTaskStatus (some r) tasks pk s).2 = 200 ∧
    (∀ q : Option UserRec, isUserOrAdminPerm q = false →
      updateTaskStatus q tasks pk s = (tasks, 403)) := by
  have hperm : isUserOrAdminPerm (some r) = true := by
    rcases hr with h | h <;> simp [isUserOrAdminPerm, h]
  obtain ⟨t, ht⟩ := Option.isSome_iff_exists.mp hex
  refine ⟨?_, ?_, ?_⟩
  · simp [updateTaskStatus, hperm, ht, hs]
  · simp [updateTaskStatus, hperm, ht, hs]
  · intro q hq
    simp [updateTaskStatus, hq]

theorem C8_role_gate_witness :
    (updateTaskStatus (some cu9) [ctask] 1 "completed").1
        = [ctask].map (fun t => if t.tid == 1 then { t with status := "completed" } else t) ∧
    (updateTaskStatus (some cu9) [ctask] 1 "completed").2 = 200 :=
  ⟨(C8_role_gate [ctask] 1 "completed" cu9 (Or.inl rfl) (by decide) (by decide)).1,
   (C8_role_gate [ctask] 1 "completed" cu9 (Or.inl rfl) (by decide) (by decide)).2.1⟩

/-- C9: a delete request whose target user has role `admin` is answered
with 403 and leaves the user table unchanged, whoever the requester is —
manager, admin, anything else, or unauthenticated. -/
theorem C9_admin_undeletable (users : List UserRec) (pk : Nat) (u : UserRec)
    (requester : Option UserRec)
    (hfind : findUser users pk = some u)
    (hrole : u.role = "admin") :
    userDelete requester users pk = (users, 403) := by
  by_cases hp : isManagerOrAdminPerm requester = true
  · simp [userDelete, hp, hfind, hrole]
  · simp [userDelete, hp]

theorem C9_admin_undeletable_witness :
    userDelete (some cmanager) [cadmin] 5 = ([cadmin], 403) ∧
    userDelete (some cadmin) [cadmin] 5 = ([cadmin], 403) :=
  ⟨C9_admin_undeletable [cadmin] 5 cadmin (some cmanager) (by decide) rfl,
   C9_admin_undeletable [cadmin] 5 cadmin (some cadmin) (by decide) rfl⟩

/-- C10: a task-creation request whose deadline is strictly before the
request's current time fails validation and creates no task; and any
request answered 201 appended exactly one task whose deadline is at or
after the current time (so it is not overdue at creation) with status
`assigned`. -/
theorem C10_deadline_validated (requester : Option UserRec) (users : List UserRec)
    (tasks : List TaskRec) (nextId : Nat) (nm ds : String) (assignedTo : Nat)
    (deadline now : Int) :
    (deadline < now →
      (taskAssignment requester users tasks nextId nm ds assignedTo deadline now).1 = tasks ∧
      (taskAssignment requester users tasks nextId nm ds assignedTo deadline now).2 ≠ 201) ∧
    ((taskAssignment requester users tasks nextId nm ds assignedTo deadline now).2 = 201 →
      (taskAssignment requester users tasks nextId nm ds assignedTo deadline now).1
          = tasks ++ [⟨nextId, nm, ds, assignedTo, deadline, "assigned"⟩] ∧
      now ≤ deadline) := by
  constructor
  · intro h
    have hv : taskCreateValid users now assignedTo deadline = false := by
      unfold taskCreateValid
      cases hfa : findAssignee users assignedTo with
      | none => rfl
      | some u => simp [h]
    by_cases hp : isManagerOrAdminPerm requester = true
    · simp [taskAssignment, hp, hv]
    · simp [taskAssignment, hp]
  · intro h201
    by_cases hp : isManagerOrAdminPerm requester = true
    · by_cases hv : taskCreateValid users now assignedTo deadline = true
      · refine ⟨by simp [taskAssignment, hp, hv], ?_⟩
        unfold taskCreateValid at hv
        cases hfa : findAssignee users assignedTo with
        | none => rw [hfa] at hv; cases hv
        | some u =>
          rw [hfa] at hv
          simp at hv
          omega
      · exfalso
        simp [taskAssignment, hp, hv] at h201
    · exfalso
      simp [taskAssignment, hp] at h201

theorem C10_deadline_validated_witness :
    ((taskAssignment (some cmanager) [cu1] [] 1 "t" "d" 1 0 5).1 = [] ∧
     (taskAssignment (some cmanager) [cu1] [] 1 "t" "d" 1 0 5).2 ≠ 201) ∧
    ((taskAssignment (some cmanager) [cu1] [] 1 "t" "d" 1 7 5).1
        = [] ++ [⟨1, "t", "d", 1, 7, "assigned"⟩] ∧
     (5 : Int) ≤ 7) :=
  ⟨(C10_deadline_validated (some cmanager) [cu1] [] 1 "t" "d" 1 0 5).1 (by decide),
   (C10_deadline_validated (some cmanager) [cu1] [] 1 "t" "d" 1 7 5).2 (by decide)⟩
